import Mathlib

/-!
Verification development for the audio segmentation core of
`app/utils/audacity_handler.py` (class `AudioProcessor`).

The Python methods are shallowly embedded as pure Lean functions.
External effects (subprocess exit codes, the tool's stderr text,
`os.listdir` results, `os.path.exists` checks, the random uuid hex)
are supplied through explicit environment records, so each method
becomes a function of its inputs and of those oracles.  Timestamps,
which Python holds as floats parsed from decimal literals, are
modelled as rationals.
-/

namespace AudacityHandler

/-- Numeric value of a digit list, most significant first
(the effect of Python `int` on a matched digit group). -/
def digitsToNat (ds : List Char) : ℕ :=
  ds.foldl (fun a c => 10 * a + (c.toNat - '0'.toNat)) 0

/-- A captured `\d+\.\d+` decimal literal: integer-part digits and
fractional-part digits. -/
structure RawNum where
  intPart : List Char
  fracPart : List Char
deriving DecidableEq, Repr

/-- Value of a captured decimal literal (the effect of Python `float` on a
`\d+\.\d+` match, modelled exactly as a rational). -/
def decVal (d : RawNum) : ℚ :=
  (digitsToNat d.intPart : ℚ) + (digitsToNat d.fracPart : ℚ) / (10 : ℚ) ^ d.fracPart.length

theorem decVal_nonneg (d : RawNum) : 0 ≤ decVal d := by
  unfold decVal
  positivity

/-- `os.path.dirname`: everything before the last path separator. -/
def dirname (s : String) : String :=
  String.mk ((s.data.reverse.dropWhile (fun c => c ≠ '/')).drop 1).reverse

/-- Python `str.zfill` / `:0Nd` formatting: left-pad with zeros to width `w`. -/
def zfill (w : ℕ) (s : String) : String :=
  String.mk (List.replicate (w - s.length) '0') ++ s

/-- Try to match the regex fragment `\d+\.\d+` at the head of `s`
(greedy digit runs, as in Python `re`); on success return the captured
digit groups and the remaining characters. -/
def matchNum (s : List Char) : Option (RawNum × List Char) :=
  match s.dropWhile Char.isDigit with
  | '.' :: r2 =>
    if (s.takeWhile Char.isDigit).isEmpty || (r2.takeWhile Char.isDigit).isEmpty
    then none
    else some (⟨s.takeWhile Char.isDigit, r2.takeWhile Char.isDigit⟩,
      r2.dropWhile Char.isDigit)
  | _ => none

/-- Try to match `lit` followed by `\d+\.\d+` at the head of `s`. -/
def matchAt (lit s : List Char) : Option (RawNum × List Char) :=
  if lit.isPrefixOf s then matchNum (s.drop lit.length) else none

theorem dropWhile_length_le (p : Char → Bool) (l : List Char) :
    (l.dropWhile p).length ≤ l.length :=
  (List.dropWhile_suffix p).sublist.length_le

theorem matchNum_rest_lt (s : List Char) (q : RawNum) (r : List Char)
    (h : matchNum s = some (q, r)) : r.length < s.length := by
  have hdl : (s.dropWhile Char.isDigit).length ≤ s.length :=
    dropWhile_length_le _ _
  unfold matchNum at h
  split at h
  · split at h
    · exact absurd h (by simp)
    · rename_i r2 heq _
      rw [Option.some.injEq, Prod.mk.injEq] at h
      obtain ⟨-, h2⟩ := h
      subst h2
      have h3 : (r2.dropWhile Char.isDigit).length ≤ r2.length :=
        dropWhile_length_le _ _
      rw [heq] at hdl
      simp only [List.length_cons] at hdl
      omega
  · exact absurd h (by simp)

theorem matchAt_rest_lt (lit s : List Char) (q : RawNum) (r : List Char)
    (h : matchAt lit s = some (q, r)) : r.length < s.length := by
  unfold matchAt at h
  by_cases hp : lit.isPrefixOf s
  · rw [if_pos hp] at h
    have h1 : r.length < (s.drop lit.length).length := matchNum_rest_lt _ _ _ h
    have h2 : (s.drop lit.length).length ≤ s.length := by
      simp [List.length_drop]
    omega
  · rw [if_neg hp] at h; exact absurd h (by simp)

/-- Fuel-indexed scanner for `re.findall`: at each position try a match;
on success emit the capture and resume after the match, otherwise advance
one character.  Each step consumes at least one character, so fuel equal to
the string length makes the scan run to the end of the string
(`findAllF_fuel` below). -/
def findAllF (lit : List Char) : ℕ → List Char → List RawNum
  | 0, _ => []
  | fuel + 1, s =>
    match matchAt lit s with
    | some (q, rest) => q :: findAllF lit fuel rest
    | none =>
      match s with
      | [] => []
      | _ :: t => findAllF lit fuel t

/-- `re.findall(lit + r'(\d+\.\d+)', s)`: the captured digit groups of all
non-overlapping leftmost matches, left to right. -/
def findAllRaw (lit s : List Char) : List RawNum :=
  findAllF lit s.length s

/-- The capture list with each capture converted by Python `float`. -/
def findAll (lit s : List Char) : List ℚ :=
  (findAllRaw lit s).map decVal

/-- The fuel argument is only a termination device: any fuel of at least
the string length produces the same match list. -/
theorem findAllF_fuel (lit : List Char) :
    ∀ f1 f2 s, s.length ≤ f1 → s.length ≤ f2 →
      findAllF lit f1 s = findAllF lit f2 s := by
  intro f1
  induction f1 with
  | zero =>
    intro f2 s h1 _
    have : s = [] := List.length_eq_zero.mp (Nat.le_zero.mp h1)
    subst this
    cases f2 with
    | zero => rfl
    | succ f2 =>
      simp only [findAllF]
      cases hm : matchAt lit [] with
      | some p =>
        exact absurd (matchAt_rest_lt lit [] p.1 p.2 (by rw [hm])) (by simp)
      | none => rfl
  | succ f1 ih =>
    intro f2 s h1 h2
    cases f2 with
    | zero =>
      have : s = [] := List.length_eq_zero.mp (Nat.le_zero.mp h2)
      subst this
      simp only [findAllF]
      cases hm : matchAt lit [] with
      | some p =>
        exact absurd (matchAt_rest_lt lit [] p.1 p.2 (by rw [hm])) (by simp)
      | none => rfl
    | succ f2 =>
      simp only [findAllF]
      cases hm : matchAt lit s with
      | some p =>
        obtain ⟨q, rest⟩ := p
        have hlt : rest.length < s.length := matchAt_rest_lt lit s q rest hm
        simp only [ih f2 rest (by omega) (by omega)]
      | none =>
        cases s with
        | nil => rfl
        | cons c t =>
          simp only [List.length_cons] at h1 h2
          exact ih f2 t (by omega) (by omega)

/-- The silence point record built by `parse_silence_points`
(Python dict with keys `start` and `end`). -/
structure SilencePoint where
  start : ℚ
  stop : ℚ
deriving DecidableEq, Repr

/-- Literal part of `start_pattern = r'silence_start: (\d+\.\d+)'`. -/
def startLit : List Char := "silence_start: ".data

/-- Literal part of `end_pattern = r'silence_end: (\d+\.\d+)'`. -/
def endLit : List Char := "silence_end: ".data

/-- `AudioProcessor.parse_silence_points`: findall both patterns, then
zip the start matches with the end matches into interval records. -/
def parse_silence_points (silence_output : String) : List SilencePoint :=
  ((findAll startLit silence_output.data).zip
    (findAll endLit silence_output.data)).map
    (fun p => { start := p.1, stop := p.2 })

/-- An ffmpeg invocation built by the handler, with the fields that appear
in the argv lists the Python code constructs. -/
inductive FfmpegCmd
  /-- `split_audio` fallback: `-f segment -segment_time <t> -c copy <outPattern>`. -/
  | segment (input : String) (segTime : String) (copyCodec : Bool) (outPattern : String)
  /-- `split_audio` per-interval extraction: `-ss <ss> -to <tto> -c copy <outFile>`. -/
  | extract (input : String) (ss tto : ℚ) (copyCodec : Bool) (outFile : String)
deriving DecidableEq, Repr

/-- The argv list the Python code passes to `subprocess.run`, with the
rational time bounds rendered to strings where Python renders floats. -/
def argvOf : FfmpegCmd → List String
  | .segment i t c o =>
    ["ffmpeg", "-i", i, "-f", "segment", "-segment_time", t]
      ++ (if c then ["-c", "copy"] else []) ++ [o]
  | .extract i ss tto c o =>
    ["ffmpeg", "-i", i, "-ss", toString ss, "-to", toString tto]
      ++ (if c then ["-c", "copy"] else []) ++ [o]

/-- The text of Python `str(subprocess.CalledProcessError)`: the command and
the exit status, and nothing else (in particular no captured stderr). -/
def cpeText (cmd : FfmpegCmd) (code : ℕ) : String :=
  "Command " ++ String.intercalate " " (argvOf cmd)
    ++ " returned non-zero exit status " ++ toString code ++ "."

/-- Oracle for `convert_to_wav`'s external effects: the transcoder's exit
status and stderr text, and whether the output file exists afterwards. -/
structure ConvEnv where
  status : ℕ
  stderr : String
  outputCreated : Bool

/-- `AudioProcessor.convert_to_wav`: build the output path
`<dirname input>/output/converted_<uuid>.wav`, run ffmpeg, fail with the
tool's stderr on non-zero exit, fail with a fixed message when the output
file is missing, otherwise return the output path. -/
def convert_to_wav (env : ConvEnv) (input_file uuid : String) :
    Except String String :=
  if env.status ≠ 0 then
    Except.error ("Audio conversion failed: " ++ env.stderr)
  else if env.outputCreated = false then
    Except.error "WAV conversion failed: Output file not created"
  else
    Except.ok (dirname input_file ++ "/output/converted_" ++ uuid ++ ".wav")

/-- Oracle for `detect_silence`'s external effects. -/
structure DetectEnv where
  status : ℕ
  stderr : String

/-- `AudioProcessor.detect_silence`: run the silencedetect filter, fail with
the tool's stderr on non-zero exit, otherwise return the captured stderr
(where the detection markers are logged). -/
def detect_silence (env : DetectEnv) : Except String String :=
  if env.status ≠ 0 then
    Except.error ("Silence detection failed: " ++ env.stderr)
  else
    Except.ok env.stderr

/-- Oracle for `split_audio`'s external effects: the listing of the base
directory (for version-number allocation), each invocation's exit status,
the per-output-file `os.path.exists` answers, and the listing of the fresh
output directory at return time. -/
structure SplitEnv where
  baseListing : List String
  runStatus : FfmpegCmd → ℕ
  /-- The diagnostic text the tool writes to stderr.  `split_audio` runs its
  subprocesses without `stderr=PIPE`, so this text is never captured and no
  definition below reads it. -/
  stderrText : FfmpegCmd → String
  segExists : String → Bool
  finalListing : List String

/-- Leading-number extraction `re.match(r'(\d+)_segments', folder)` followed
by `int(...)`: a non-empty leading digit run then the literal `_segments`. -/
def leadingSegNum (folder : String) : Option ℕ :=
  if (folder.data.takeWhile Char.isDigit).isEmpty = false
      ∧ "_segments".data.isPrefixOf (folder.data.dropWhile Char.isDigit) then
    some (digitsToNat (folder.data.takeWhile Char.isDigit))
  else none

/-- The version-number allocation inside `split_audio`: keep the listing
entries that start with `segments_`, extract their leading numbers with
`re.match(r'(\d+)_segments', ...)`, and take `max(existing, default=0) + 1`. -/
def nextFolderNumber (baseListing : List String) : ℕ :=
  (((baseListing.filter (fun f => "segments_".data.isPrefixOf f.data)).filterMap
    leadingSegNum).foldl max 0) + 1

/-- The allocation algorithm as the specification words it: consider the
sibling entries matching `<NN>_segments_*`, extract the leading integers,
and take `max(observed) + 1`, or `1` if none observed. -/
def specNextFolderNumber (baseListing : List String) : ℕ :=
  ((baseListing.filterMap leadingSegNum).foldl max 0) + 1

/-- The segment file name `f'segment_{i+1:03d}.wav'` used in the
silence-driven loop, for the 0-based loop index `i`. -/
def segmentName (i : ℕ) : String :=
  "segment_" ++ zfill 3 (toString (i + 1)) ++ ".wav"

/-- The extraction command built for the 0-based interval index `i`:
`-ss max(0, start - 1)`, `-to stop + 1`, stream copy. -/
def extractCmd (wav_file output_dir : String) (i : ℕ) (p : SilencePoint) :
    FfmpegCmd :=
  FfmpegCmd.extract wav_file (max 0 (p.start - 1)) (p.stop + 1) true
    (output_dir ++ "/" ++ segmentName i)

/-- The versioned output directory `split_audio` allocates:
`<dirname wav>/<NN zero-padded to 2>_segments_<uuid>` with `NN` from
`nextFolderNumber`. -/
def outputDirOf (env : SplitEnv) (wav_file uuid : String) : String :=
  dirname wav_file ++ "/"
    ++ zfill 2 (toString (nextFolderNumber env.baseListing))
    ++ "_segments_" ++ uuid

/-- The silence-driven extraction loop of `split_audio`: for each interval
run the extraction command (`check=True`, so a non-zero exit raises
immediately, aborting the loop), then append the output file to the local
`segments` list if `os.path.exists` says it was created.  Returns the
raised `CalledProcessError` text if any, the accumulated local list, and
the trace of commands actually run. -/
def splitLoop (env : SplitEnv) (wav_file output_dir : String) :
    ℕ → List SilencePoint → Option String × List String × List FfmpegCmd
  | _, [] => (none, [], [])
  | i, p :: rest =>
    if env.runStatus (extractCmd wav_file output_dir i p) = 0 then
      match splitLoop env wav_file output_dir (i + 1) rest with
      | (e, segs, cs) =>
        (e,
         (if env.segExists (output_dir ++ "/" ++ segmentName i) then
            (output_dir ++ "/" ++ segmentName i) :: segs
          else segs),
         extractCmd wav_file output_dir i p :: cs)
    else
      (some (cpeText (extractCmd wav_file output_dir i p)
          (env.runStatus (extractCmd wav_file output_dir i p))),
       [], [extractCmd wav_file output_dir i p])

/-- `AudioProcessor.split_audio`: allocate the versioned output directory,
then either run the fixed 10-second fallback segmentation (when
`silence_points` is `None` or empty) or the per-interval extraction loop;
on success return the fresh directory's listing filtered to `.wav` names
(the loop's local `segments` list is discarded); wrap any
`CalledProcessError` in `Failed to split audio: ...`.  The second
component is the trace of ffmpeg invocations. -/
def split_audio (env : SplitEnv) (wav_file uuid : String)
    (silence_points : Option (List SilencePoint)) :
    Except String (List String) × List FfmpegCmd :=
  if (silence_points.getD []).isEmpty then
    let cmd := FfmpegCmd.segment wav_file "10" true
      (outputDirOf env wav_file uuid ++ "/segment_%03d.wav")
    if env.runStatus cmd = 0 then
      (Except.ok (env.finalListing.filter (fun f => ".wav".data.isSuffixOf f.data)), [cmd])
    else
      (Except.error ("Failed to split audio: "
        ++ cpeText cmd (env.runStatus cmd)), [cmd])
  else
    match splitLoop env wav_file (outputDirOf env wav_file uuid) 0
      (silence_points.getD []) with
    | (some e, _segments, cs) =>
      (Except.error ("Failed to split audio: " ++ e), cs)
    | (none, _segments, cs) =>
      (Except.ok (env.finalListing.filter (fun f => ".wav".data.isSuffixOf f.data)), cs)

/-- The typed error kinds of the specification, tagged by the pipeline stage
whose failure produced them; each carries the message text of the exception
the Python code raises. -/
inductive PipelineError
  | conversionError (msg : String)
  | detectionError (msg : String)
  | splitError (msg : String)
deriving DecidableEq, Repr

/-- A pipeline stage, for the execution trace of `process_audio`. -/
inductive Stage
  | conversion
  | detection
  | parsing
  | splitting
deriving DecidableEq, Repr

/-- Oracle bundle for one `process_audio` run. -/
structure PipelineEnv where
  conv : ConvEnv
  det : DetectEnv
  split : SplitEnv
  convUuid : String
  splitUuid : String

/-- `AudioProcessor.process_audio`: convert, detect, parse, split, in that
order, stopping at the first stage that raises and re-raising its error
unchanged (tagged here by the stage that produced it).  The second component
records which stages actually ran, in order. -/
def process_audio (env : PipelineEnv) (input_file : String) :
    Except PipelineError (List String) × List Stage :=
  match convert_to_wav env.conv input_file env.convUuid with
  | Except.error m => (Except.error (PipelineError.conversionError m), [Stage.conversion])
  | Except.ok wav_file =>
    match detect_silence env.det with
    | Except.error m =>
      (Except.error (PipelineError.detectionError m), [Stage.conversion, Stage.detection])
    | Except.ok silence_output =>
      match split_audio env.split wav_file env.splitUuid
        (some (parse_silence_points silence_output)) with
      | (Except.error m, _) =>
        (Except.error (PipelineError.splitError m),
         [Stage.conversion, Stage.detection, Stage.parsing, Stage.splitting])
      | (Except.ok segments, _) =>
        (Except.ok segments,
         [Stage.conversion, Stage.detection, Stage.parsing, Stage.splitting])

/-- Modelled from the spec: the external tool's fixed-interval segmentation
mode (ffmpeg `-f segment -segment_time w`), which is outside this
repository.  On an input of duration `T` it produces `⌈T / w⌉` consecutive
windows, the `i`-th spanning `[i·w, min((i+1)·w, T))`. -/
def fixedModeWindows (w T : ℚ) : List (ℚ × ℚ) :=
  (List.range ⌈T / w⌉.toNat).map
    (fun i : ℕ => ((i : ℚ) * w, min (((i : ℚ) + 1) * w) T))

theorem fixedModeWindows_cover (w T : ℚ) (hw : 0 < w) (t : ℚ)
    (h0 : 0 ≤ t) (hT : t < T) :
    ∃ p ∈ fixedModeWindows w T, p.1 ≤ t ∧ t < p.2 := by
  have hk0 : (0 : ℤ) ≤ ⌊t / w⌋ := Int.floor_nonneg.mpr (by positivity)
  have hkcast : ((⌊t / w⌋.toNat : ℤ)) = ⌊t / w⌋ := Int.toNat_of_nonneg hk0
  have hkQ : ((⌊t / w⌋.toNat : ℕ) : ℚ) = ((⌊t / w⌋ : ℤ) : ℚ) := by
    exact_mod_cast congrArg (fun z => ((z : ℤ) : ℚ)) hkcast
  have hlow : ((⌊t / w⌋.toNat : ℕ) : ℚ) * w ≤ t := by
    rw [hkQ]
    have h1 : ((⌊t / w⌋ : ℤ) : ℚ) ≤ t / w := Int.floor_le (t / w)
    calc ((⌊t / w⌋ : ℤ) : ℚ) * w ≤ (t / w) * w :=
          mul_le_mul_of_nonneg_right h1 (le_of_lt hw)
      _ = t := div_mul_cancel₀ t (ne_of_gt hw)
  have hhigh : t < (((⌊t / w⌋.toNat : ℕ) : ℚ) + 1) * w := by
    rw [hkQ]
    have h1 : t / w < ((⌊t / w⌋ : ℤ) : ℚ) + 1 := Int.lt_floor_add_one (t / w)
    calc t = (t / w) * w := (div_mul_cancel₀ t (ne_of_gt hw)).symm
      _ < (((⌊t / w⌋ : ℤ) : ℚ) + 1) * w := mul_lt_mul_of_pos_right h1 hw
  have hkn : ⌊t / w⌋.toNat < ⌈T / w⌉.toNat := by
    have ha : t / w < T / w := by gcongr
    have h1 : ⌊t / w⌋ < ⌈T / w⌉ := by
      have h2 : ((⌊t / w⌋ : ℤ) : ℚ) < ((⌈T / w⌉ : ℤ) : ℚ) :=
        lt_of_le_of_lt (Int.floor_le (t / w)) (lt_of_lt_of_le ha (Int.le_ceil (T / w)))
      exact_mod_cast h2
    omega
  refine ⟨(((⌊t / w⌋.toNat : ℕ) : ℚ) * w,
    min ((((⌊t / w⌋.toNat : ℕ) : ℚ) + 1) * w) T), ?_, hlow, lt_min hhigh hT⟩
  unfold fixedModeWindows
  exact List.mem_map.mpr ⟨⌊t / w⌋.toNat, List.mem_range.mpr hkn, rfl⟩

theorem fixedModeWindows_width_le (w T : ℚ) (p : ℚ × ℚ)
    (hp : p ∈ fixedModeWindows w T) : p.2 - p.1 ≤ w := by
  unfold fixedModeWindows at hp
  obtain ⟨i, -, rfl⟩ := List.mem_map.mp hp
  simp only
  have hexp : ((i : ℚ) + 1) * w = (i : ℚ) * w + w := by ring
  have hmin := min_le_left (((i : ℚ) + 1) * w) T
  linarith [hexp, hmin]

theorem fixedModeWindows_getD (w T : ℚ) (i : ℕ)
    (hi : i < (fixedModeWindows w T).length) :
    (fixedModeWindows w T).getD i (0, 0)
      = ((i : ℚ) * w, min (((i : ℚ) + 1) * w) T) := by
  unfold fixedModeWindows at hi ⊢
  rw [List.getD_eq_getElem _ _ hi]
  simp only [List.length_map, List.length_range] at hi
  simp [hi]

theorem fixedModeWindows_inner_width (w T : ℚ) (hw : 0 < w) (i : ℕ)
    (hi : i + 1 < (fixedModeWindows w T).length) :
    ((fixedModeWindows w T).getD i (0, 0)).2
      - ((fixedModeWindows w T).getD i (0, 0)).1 = w := by
  have hget := fixedModeWindows_getD w T i (by omega)
  rw [hget]
  simp only
  have hlen : (fixedModeWindows w T).length = ⌈T / w⌉.toNat := by
    simp [fixedModeWindows]
  rw [hlen] at hi
  have hmin : min (((i : ℚ) + 1) * w) T = ((i : ℚ) + 1) * w := by
    apply min_eq_left
    have hn1 : ((⌈T / w⌉ : ℤ) : ℚ) - 1 < T / w := by
      have := Int.ceil_lt_add_one (T / w)
      push_cast at this ⊢
      linarith
    have hi2 : ((i : ℚ) + 1) ≤ ((⌈T / w⌉ : ℤ) : ℚ) - 1 := by
      have hz : (i : ℤ) + 1 + 1 ≤ ⌈T / w⌉ := by omega
      have : ((i : ℚ) + 1) + 1 ≤ ((⌈T / w⌉ : ℤ) : ℚ) := by exact_mod_cast hz
      linarith
    have hw' : (((⌈T / w⌉ : ℤ) : ℚ) - 1) * w < T := by
      calc (((⌈T / w⌉ : ℤ) : ℚ) - 1) * w < (T / w) * w :=
            mul_lt_mul_of_pos_right hn1 hw
        _ = T := div_mul_cancel₀ T (ne_of_gt hw)
    calc ((i : ℚ) + 1) * w ≤ (((⌈T / w⌉ : ℤ) : ℚ) - 1) * w :=
          mul_le_mul_of_nonneg_right hi2 (le_of_lt hw)
      _ ≤ T := le_of_lt hw'
  rw [hmin]
  ring

theorem fixedModeWindows_last_end (w T : ℚ) (hw : 0 < w) (hT : 0 < T) :
    ((fixedModeWindows w T).getD ((fixedModeWindows w T).length - 1) (0, 0)).2
      = T := by
  have hpos : (0 : ℚ) < T / w := by positivity
  have hn : 0 < ⌈T / w⌉ := Int.ceil_pos.mpr hpos
  have hlen : (fixedModeWindows w T).length = ⌈T / w⌉.toNat := by
    simp [fixedModeWindows]
  have hn' : 1 ≤ ⌈T / w⌉.toNat := by omega
  have hb : ⌈T / w⌉.toNat - 1 < (fixedModeWindows w T).length := by
    rw [hlen]; omega
  have hget := fixedModeWindows_getD w T (⌈T / w⌉.toNat - 1) hb
  rw [hlen, hget]
  simp only
  apply min_eq_right
  have hcast : (((⌈T / w⌉.toNat - 1 : ℕ) : ℚ) + 1) = ((⌈T / w⌉ : ℤ) : ℚ) := by
    have h1 : ((⌈T / w⌉.toNat - 1 : ℕ) : ℤ) = ⌈T / w⌉ - 1 := by omega
    have h2 : ((⌈T / w⌉.toNat - 1 : ℕ) : ℚ) = ((⌈T / w⌉ - 1 : ℤ) : ℚ) := by
      exact_mod_cast congrArg (fun z => ((z : ℤ) : ℚ)) h1
    rw [h2]
    push_cast
    ring
  rw [hcast]
  calc T = (T / w) * w := (div_mul_cancel₀ T (ne_of_gt hw)).symm
    _ ≤ ((⌈T / w⌉ : ℤ) : ℚ) * w :=
        mul_le_mul_of_nonneg_right (Int.le_ceil (T / w)) (le_of_lt hw)

/-- Replacing the `os.path.exists` oracle changes neither the abort status
nor the command trace of the extraction loop: the existence checks only
shape the local `segments` list. -/
theorem splitLoop_exists_oracle (env : SplitEnv) (e : String → Bool)
    (wav_file output_dir : String) :
    ∀ i pts,
      (splitLoop { env with segExists := e } wav_file output_dir i pts).1
        = (splitLoop env wav_file output_dir i pts).1 ∧
      (splitLoop { env with segExists := e } wav_file output_dir i pts).2.2
        = (splitLoop env wav_file output_dir i pts).2.2 := by
  intro i pts
  induction pts generalizing i with
  | nil => exact ⟨rfl, rfl⟩
  | cons p rest ih =>
    simp only [splitLoop]
    by_cases h : env.runStatus (extractCmd wav_file output_dir i p) = 0
    · rw [if_pos h, if_pos h]
      obtain ⟨h1, h2⟩ := ih (i + 1)
      cases hl : splitLoop { env with segExists := e } wav_file output_dir (i + 1) rest with
      | mk e1 rest1 =>
        cases hl' : splitLoop env wav_file output_dir (i + 1) rest with
        | mk e2 rest2 =>
          rw [hl, hl'] at h1 h2
          simp only at h1 h2 ⊢
          exact ⟨h1, by rw [h2]⟩
    · rw [if_neg h, if_neg h]
      exact ⟨rfl, rfl⟩

/-- Replacing the `os.path.exists` oracle does not change the result or the
trace of `split_audio` at all. -/
theorem split_audio_exists_oracle (env : SplitEnv) (e : String → Bool)
    (wav_file uuid : String) (silence_points : Option (List SilencePoint)) :
    split_audio { env with segExists := e } wav_file uuid silence_points
      = split_audio env wav_file uuid silence_points := by
  unfold split_audio
  by_cases hne : (silence_points.getD []).isEmpty
  · rw [if_pos hne, if_pos hne]; rfl
  · rw [if_neg hne, if_neg hne]
    obtain ⟨h1, h2⟩ := splitLoop_exists_oracle env e wav_file
      (outputDirOf env wav_file uuid) 0 (silence_points.getD [])
    have hdir : outputDirOf { env with segExists := e } wav_file uuid
        = outputDirOf env wav_file uuid := rfl
    rw [hdir]
    rcases hl : splitLoop { env with segExists := e } wav_file
      (outputDirOf env wav_file uuid) 0 (silence_points.getD []) with ⟨e1, s1, c1⟩
    rcases hl' : splitLoop env wav_file
      (outputDirOf env wav_file uuid) 0 (silence_points.getD []) with ⟨e2, s2, c2⟩
    rw [hl, hl'] at h1 h2
    simp only at h1 h2
    subst h1
    subst h2
    cases e1 <;> rfl

/-- Claim C1: the directory allocation in `split_audio` does not follow the
versioning algorithm of the specification.  With a sibling directory
`01_segments_aaaa1111` left by an earlier run, the code still allocates
number 1 (and so creates a second `01_segments_*` directory), whereas the
specified algorithm — extract `NN` from every `<NN>_segments_*` sibling
and take `max + 1` — would allocate 2: the code pre-filters the listing
with `startswith('segments_')`, which never matches the `NN_segments_*`
names the code itself creates. -/
theorem C1_allocation_reissues_number :
    nextFolderNumber ["01_segments_aaaa1111"] = 1
    ∧ specNextFolderNumber ["01_segments_aaaa1111"] = 2
    ∧ zfill 2 (toString (nextFolderNumber ["01_segments_aaaa1111"])) = "01" := by
  refine ⟨by decide, by decide, by decide⟩

/-- Claim C10: calling `split_audio` with `silence_points` omitted (its
default `None`) behaves identically to calling it with an empty interval
list: both take the fixed-length fallback path and produce the same result
and the same command trace, for every environment and asset. -/
theorem C10_none_same_as_empty (env : SplitEnv) (wav_file uuid : String) :
    split_audio env wav_file uuid none = split_audio env wav_file uuid (some []) :=
  rfl

/-- The scenario text of the specification: an unterminated second
silence interval. -/
def scenarioText : String :=
  "silence_start: 1.000000\nsilence_end: 3.500000\nsilence_start: 10.000000"

theorem decVal_one : decVal ⟨['1'], ['0', '0', '0', '0', '0', '0']⟩ = 1 := by
  rw [decVal, show digitsToNat ['1'] = 1 from by decide,
    show digitsToNat ['0', '0', '0', '0', '0', '0'] = 0 from by decide]
  norm_num

theorem decVal_ten : decVal ⟨['1', '0'], ['0', '0', '0', '0', '0', '0']⟩ = 10 := by
  rw [decVal, show digitsToNat ['1', '0'] = 10 from by decide,
    show digitsToNat ['0', '0', '0', '0', '0', '0'] = 0 from by decide]
  norm_num

theorem decVal_threeFive : decVal ⟨['3'], ['5', '0', '0', '0', '0', '0']⟩ = 7 / 2 := by
  rw [decVal, show digitsToNat ['3'] = 3 from by decide,
    show digitsToNat ['5', '0', '0', '0', '0', '0'] = 500000 from by decide]
  norm_num

theorem parse_scenario :
    parse_silence_points scenarioText = [{ start := 1, stop := 7 / 2 }] := by
  unfold parse_silence_points findAll
  rw [show findAllRaw startLit scenarioText.data
      = [⟨['1'], ['0', '0', '0', '0', '0', '0']⟩,
         ⟨['1', '0'], ['0', '0', '0', '0', '0', '0']⟩] from by decide,
    show findAllRaw endLit scenarioText.data
      = [⟨['3'], ['5', '0', '0', '0', '0', '0']⟩] from by decide]
  simp [decVal_one, decVal_ten, decVal_threeFive]

theorem decVal_five : decVal ⟨['5'], ['0']⟩ = 5 := by
  rw [decVal, show digitsToNat ['5'] = 5 from by decide,
    show digitsToNat ['0'] = 0 from by decide]
  norm_num

theorem decVal_oneShort : decVal ⟨['1'], ['0']⟩ = 1 := by
  rw [decVal, show digitsToNat ['1'] = 1 from by decide,
    show digitsToNat ['0'] = 0 from by decide]
  norm_num

/-- A detection text in which a resumption marker precedes the first onset
marker, so pairing produces an inverted interval. -/
def invertedText : String := "silence_end: 1.0 silence_start: 5.0"

theorem parse_inverted :
    parse_silence_points invertedText = [{ start := 5, stop := 1 }] := by
  unfold parse_silence_points findAll
  rw [show findAllRaw startLit invertedText.data = [⟨['5'], ['0']⟩] from by decide,
    show findAllRaw endLit invertedText.data = [⟨['1'], ['0']⟩] from by decide]
  simp [decVal_five, decVal_oneShort]

theorem map_zip_getD (A B : List ℚ) (i : ℕ)
    (hA : i < A.length) (hB : i < B.length) :
    ((A.zip B).map (fun p => SilencePoint.mk p.1 p.2)).getD i ⟨0, 0⟩
      = ⟨A.getD i 0, B.getD i 0⟩ := by
  induction A generalizing B i with
  | nil => simp at hA
  | cons a A ih =>
    cases B with
    | nil => simp at hB
    | cons b B =>
      cases i with
      | zero => rfl
      | succ i =>
        simp only [List.length_cons, Nat.succ_lt_succ_iff] at hA hB
        simpa using ih B i hA hB

/-- Claim C2: for every raw detection text, `parse_silence_points` returns
exactly `min(m, n)` intervals, where `m` and `n` are the counts of onset
and resumption markers, and the `i`-th interval pairs the `i`-th onset
timestamp with the `i`-th resumption timestamp in order of appearance;
trailing unmatched markers are dropped. -/
theorem C2_pairing (s : String) (i : ℕ)
    (hi : i < (parse_silence_points s).length) :
    (parse_silence_points s).length
      = min (findAll startLit s.data).length (findAll endLit s.data).length
    ∧ (parse_silence_points s).getD i ⟨0, 0⟩
      = ⟨(findAll startLit s.data).getD i 0, (findAll endLit s.data).getD i 0⟩ := by
  have hlen : (parse_silence_points s).length
      = min (findAll startLit s.data).length (findAll endLit s.data).length := by
    simp [parse_silence_points]
  refine ⟨hlen, ?_⟩
  rw [hlen] at hi
  exact map_zip_getD _ _ i (lt_of_lt_of_le hi (min_le_left _ _))
    (lt_of_lt_of_le hi (min_le_right _ _))

/-- Witness for Claim C2 at the specification's scenario text and index 0:
two onset markers, one resumption marker, one interval pairing the first
onset with the first resumption. -/
theorem C2_pairing_witness :
    0 < (parse_silence_points scenarioText).length
    ∧ ((parse_silence_points scenarioText).length
        = min (findAll startLit scenarioText.data).length
            (findAll endLit scenarioText.data).length
      ∧ (parse_silence_points scenarioText).getD 0 ⟨0, 0⟩
        = ⟨(findAll startLit scenarioText.data).getD 0 0,
           (findAll endLit scenarioText.data).getD 0 0⟩) :=
  ⟨by decide, C2_pairing scenarioText 0 (by decide)⟩

/-- Claim C6 (amended): every interval produced by the parser has
`0 ≤ start` and `0 ≤ stop` (timestamps come from unsigned decimal
literals), but `start < stop` is not validated and can fail. -/
theorem C6_intervals_nonneg (s : String) (p : SilencePoint)
    (hp : p ∈ parse_silence_points s) : 0 ≤ p.start ∧ 0 ≤ p.stop := by
  unfold parse_silence_points at hp
  obtain ⟨pair, hpair, hmk⟩ := List.mem_map.mp hp
  obtain ⟨h1, h2⟩ := List.of_mem_zip hpair
  obtain ⟨r1, -, hr1⟩ := List.mem_map.mp h1
  obtain ⟨r2, -, hr2⟩ := List.mem_map.mp h2
  subst hmk
  exact ⟨hr1 ▸ decVal_nonneg r1, hr2 ▸ decVal_nonneg r2⟩

/-- Counterexample to Claim C6 as stated: on a detection text where a
resumption marker precedes the first onset marker, the parser produces the
interval `(start = 5, stop = 1)`, which violates `start < stop`. -/
theorem C6_counterexample :
    parse_silence_points invertedText = [{ start := 5, stop := 1 }]
    ∧ ¬ (({ start := 5, stop := 1 } : SilencePoint).start
        < ({ start := 5, stop := 1 } : SilencePoint).stop) :=
  ⟨parse_inverted, by norm_num⟩

/-- When every extraction command of the loop exits 0, the loop aborts
nowhere and its command trace is exactly one extraction per interval, in
enumeration order. -/
theorem splitLoop_all_ok (env : SplitEnv) (wav_file output_dir : String) :
    ∀ (pts : List SilencePoint) (a : ℕ),
      (∀ ip ∈ List.enumFrom a pts,
        env.runStatus (extractCmd wav_file output_dir ip.1 ip.2) = 0) →
      (splitLoop env wav_file output_dir a pts).1 = none
      ∧ (splitLoop env wav_file output_dir a pts).2.2
          = (List.enumFrom a pts).map
              (fun ip => extractCmd wav_file output_dir ip.1 ip.2) := by
  intro pts
  induction pts with
  | nil => exact fun a _ => ⟨rfl, rfl⟩
  | cons p rest ih =>
    intro a h
    have h0 : env.runStatus (extractCmd wav_file output_dir a p) = 0 :=
      h (a, p) (List.mem_cons_self _ _)
    have hrest := ih (a + 1) (fun ip hip => h ip (List.mem_cons_of_mem _ hip))
    simp only [splitLoop, if_pos h0]
    rcases hl : splitLoop env wav_file output_dir (a + 1) rest with ⟨e1, s1, c1⟩
    rw [hl] at hrest
    simp only at hrest ⊢
    exact ⟨hrest.1, by rw [List.enumFrom, List.map_cons, hrest.2]⟩

/-- If the extraction commands for the intervals before relative index `i`
exit 0 and the one at `i` exits non-zero, the loop aborts exactly there:
it reports that command's `CalledProcessError` text and its trace stops at
that command. -/
theorem splitLoop_first_fail (env : SplitEnv) (wav_file output_dir : String) :
    ∀ (pts : List SilencePoint) (a i : ℕ), i < pts.length →
      (∀ j, j < i →
        env.runStatus (extractCmd wav_file output_dir (a + j) (pts.getD j ⟨0, 0⟩)) = 0) →
      env.runStatus (extractCmd wav_file output_dir (a + i) (pts.getD i ⟨0, 0⟩)) ≠ 0 →
      (splitLoop env wav_file output_dir a pts).1
        = some (cpeText (extractCmd wav_file output_dir (a + i) (pts.getD i ⟨0, 0⟩))
            (env.runStatus (extractCmd wav_file output_dir (a + i) (pts.getD i ⟨0, 0⟩))))
      ∧ (splitLoop env wav_file output_dir a pts).2.2
          = ((List.enumFrom a pts).take (i + 1)).map
              (fun ip => extractCmd wav_file output_dir ip.1 ip.2) := by
  intro pts
  induction pts with
  | nil => intro a i hi; simp at hi
  | cons p rest ih =>
    intro a i hi hok hfail
    cases i with
    | zero =>
      have hf : env.runStatus (extractCmd wav_file output_dir a p) ≠ 0 := by
        simpa using hfail
      constructor
      · simp only [splitLoop, if_neg hf, Nat.add_zero, List.getD_cons_zero]
      · simp only [splitLoop, if_neg hf]
        rfl
    | succ i =>
      have h0 : env.runStatus (extractCmd wav_file output_dir a p) = 0 := by
        have := hok 0 (Nat.succ_pos i)
        simpa using this
      have hok' : ∀ j, j < i →
          env.runStatus (extractCmd wav_file output_dir ((a + 1) + j)
            (rest.getD j ⟨0, 0⟩)) = 0 := by
        intro j hj
        have := hok (j + 1) (Nat.succ_lt_succ hj)
        have harith : a + (j + 1) = a + 1 + j := by omega
        rwa [harith, List.getD_cons_succ] at this
      have hfail' : env.runStatus (extractCmd wav_file output_dir ((a + 1) + i)
          (rest.getD i ⟨0, 0⟩)) ≠ 0 := by
        have harith : a + (i + 1) = a + 1 + i := by omega
        rwa [harith, List.getD_cons_succ] at hfail
      have hlen : i < rest.length := by
        simpa [Nat.succ_lt_succ_iff] using hi
      have hrest := ih (a + 1) i hlen hok' hfail'
      simp only [splitLoop, if_pos h0]
      rcases hl : splitLoop env wav_file output_dir (a + 1) rest with ⟨e1, s1, c1⟩
      rw [hl] at hrest
      simp only at hrest ⊢
      obtain ⟨hr1, hr2⟩ := hrest
      constructor
      · rw [hr1, List.getD_cons_succ]
        have harith : a + 1 + i = a + (i + 1) := by omega
        rw [harith]
      · rw [hr2]
        rfl

/-- Claim C9: the silence-driven path is fail-fast.  If the extraction
call for interval `i` exits non-zero (all earlier ones exiting 0),
`split_audio` raises immediately: the result is the wrapped
`CalledProcessError` of that command, the command trace stops at interval
`i`, and the per-segment existence oracle has no influence on the result. -/
theorem C9_fail_fast (env : SplitEnv) (wav_file uuid : String)
    (pts : List SilencePoint) (i : ℕ) (hi : i < pts.length)
    (hok : ∀ j, j < i → env.runStatus
      (extractCmd wav_file (outputDirOf env wav_file uuid) j (pts.getD j ⟨0, 0⟩)) = 0)
    (hfail : env.runStatus
      (extractCmd wav_file (outputDirOf env wav_file uuid) i (pts.getD i ⟨0, 0⟩)) ≠ 0) :
    (split_audio env wav_file uuid (some pts)).1
      = Except.error ("Failed to split audio: "
          ++ cpeText (extractCmd wav_file (outputDirOf env wav_file uuid) i (pts.getD i ⟨0, 0⟩))
            (env.runStatus (extractCmd wav_file (outputDirOf env wav_file uuid) i
              (pts.getD i ⟨0, 0⟩))))
    ∧ (split_audio env wav_file uuid (some pts)).2
        = (pts.enum.take (i + 1)).map
            (fun ip => extractCmd wav_file (outputDirOf env wav_file uuid) ip.1 ip.2)
    ∧ split_audio { env with segExists := fun _ => true } wav_file uuid (some pts)
        = split_audio { env with segExists := fun _ => false } wav_file uuid (some pts) := by
  have hne : pts.isEmpty = false := by
    cases pts with
    | nil => simp at hi
    | cons p rest => rfl
  have hloop := splitLoop_first_fail env wav_file (outputDirOf env wav_file uuid)
    pts 0 i hi (by simpa using hok) (by simpa using hfail)
  simp only [Nat.zero_add] at hloop
  refine ⟨?_, ?_, ?_⟩
  · unfold split_audio
    rw [if_neg (by simp [hne])]
    simp only [Option.getD_some]
    rcases hl : splitLoop env wav_file (outputDirOf env wav_file uuid) 0 pts
      with ⟨e1, s1, c1⟩
    rw [hl] at hloop
    simp only at hloop
    rw [hloop.1]
  · unfold split_audio
    rw [if_neg (by simp [hne])]
    simp only [Option.getD_some]
    rcases hl : splitLoop env wav_file (outputDirOf env wav_file uuid) 0 pts
      with ⟨e1, s1, c1⟩
    rw [hl] at hloop
    simp only at hloop
    rw [hloop.1, hloop.2]
    rfl
  · rw [split_audio_exists_oracle env (fun _ => true) wav_file uuid (some pts),
      split_audio_exists_oracle env (fun _ => false) wav_file uuid (some pts)]

/-- A split environment in which every external invocation succeeds, with
one stray non-`.wav` entry in the final directory listing. -/
def okEnv : SplitEnv :=
  { baseListing := []
    runStatus := fun _ => 0
    stderrText := fun _ => ""
    segExists := fun _ => true
    finalListing := ["segment_000.wav", "notes.txt"] }

/-- A split environment in which every external invocation exits with
status 1 and writes `boom` to its (uncaptured) stderr. -/
def failEnv : SplitEnv :=
  { baseListing := []
    runStatus := fun _ => 1
    stderrText := fun _ => "boom"
    segExists := fun _ => true
    finalListing := [] }

/-- Claim C3: on a non-empty interval list whose extraction calls all
succeed, `split_audio` runs, for each interval `i` in order, one extraction
of the window `[max(0, start − 1), stop + 1]` into
`segment_<i+1, zero-padded to 3 digits>.wav`, stream-copied; in particular
the interval `(start = 3/10, stop = 2)` gets the clamped window `[0, 3]`,
and the specification's scenario text parses to the single interval
`(1, 7/2)` whose window is `[0, 9/2]`. -/
theorem C3_extraction_windows (env : SplitEnv) (wav_file uuid : String)
    (pts : List SilencePoint) (hne : pts ≠ [])
    (hok : ∀ ip ∈ pts.enum,
      env.runStatus (extractCmd wav_file (outputDirOf env wav_file uuid) ip.1 ip.2) = 0) :
    (split_audio env wav_file uuid (some pts)).2
      = pts.enum.map (fun ip =>
          FfmpegCmd.extract wav_file (max 0 (ip.2.start - 1)) (ip.2.stop + 1) true
            (outputDirOf env wav_file uuid ++ "/"
              ++ ("segment_" ++ zfill 3 (toString (ip.1 + 1)) ++ ".wav")))
    ∧ (∃ l, (split_audio env wav_file uuid (some pts)).1 = Except.ok l)
    ∧ extractCmd wav_file (outputDirOf env wav_file uuid) 0 ⟨3 / 10, 2⟩
        = FfmpegCmd.extract wav_file 0 3 true
            (outputDirOf env wav_file uuid ++ "/" ++ segmentName 0)
    ∧ parse_silence_points scenarioText = [{ start := 1, stop := 7 / 2 }]
    ∧ extractCmd wav_file (outputDirOf env wav_file uuid) 0 ⟨1, 7 / 2⟩
        = FfmpegCmd.extract wav_file 0 (9 / 2) true
            (outputDirOf env wav_file uuid ++ "/" ++ segmentName 0) := by
  have hloop := splitLoop_all_ok env wav_file (outputDirOf env wav_file uuid) pts 0 hok
  have hemp : pts.isEmpty = false := by
    cases pts with
    | nil => exact absurd rfl hne
    | cons a b => rfl
  constructor
  · unfold split_audio
    rw [if_neg (by simp [hemp])]
    simp only [Option.getD_some]
    rcases hl : splitLoop env wav_file (outputDirOf env wav_file uuid) 0 pts
      with ⟨e1, s1, c1⟩
    rw [hl] at hloop
    simp only at hloop
    rw [hloop.1, hloop.2]
    rfl
  constructor
  · unfold split_audio
    rw [if_neg (by simp [hemp])]
    simp only [Option.getD_some]
    rcases hl : splitLoop env wav_file (outputDirOf env wav_file uuid) 0 pts
      with ⟨e1, s1, c1⟩
    rw [hl] at hloop
    simp only at hloop
    rw [hloop.1]
    exact ⟨_, rfl⟩
  refine ⟨?_, parse_scenario, ?_⟩
  · have h1 : max (0 : ℚ) (3 / 10 - 1) = 0 := max_eq_left (by norm_num)
    simp only [extractCmd]
    rw [h1]
    norm_num
  · have h1 : max (0 : ℚ) (1 - 1) = 0 := max_eq_left (by norm_num)
    simp only [extractCmd]
    rw [h1]
    norm_num

/-- Witness for Claim C3: the scenario interval `(1, 7/2)` in the all-ok
environment produces exactly one extraction command, window `[0, 9/2]`. -/
theorem C3_extraction_windows_witness :
    (split_audio okEnv "a.wav" "u" (some [{ start := 1, stop := 7 / 2 }])).2
      = ([{ start := 1, stop := 7 / 2 }] : List SilencePoint).enum.map (fun ip =>
          FfmpegCmd.extract "a.wav" (max 0 (ip.2.start - 1)) (ip.2.stop + 1) true
            (outputDirOf okEnv "a.wav" "u" ++ "/"
              ++ ("segment_" ++ zfill 3 (toString (ip.1 + 1)) ++ ".wav"))) :=
  (C3_extraction_windows okEnv "a.wav" "u" [{ start := 1, stop := 7 / 2 }]
    (by simp) (fun ip _ => rfl)).1

/-- Claim C4: whenever `split_audio` returns successfully, the returned
value is the final listing of the freshly created output directory filtered
to names ending in `.wav` — an ordered list of names drawn from the
listing, not of joined paths — and the result is entirely independent of
the per-segment existence checks accumulated during the extraction loop. -/
theorem C4_return_is_listing (env : SplitEnv) (e : String → Bool)
    (wav_file uuid : String) (silence_points : Option (List SilencePoint))
    (l : List String)
    (h : (split_audio env wav_file uuid silence_points).1 = Except.ok l) :
    l = env.finalListing.filter (fun f => ".wav".data.isSuffixOf f.data)
    ∧ (∀ x ∈ l, x ∈ env.finalListing)
    ∧ split_audio { env with segExists := e } wav_file uuid silence_points
        = split_audio env wav_file uuid silence_points := by
  have hl : l = env.finalListing.filter (fun f => ".wav".data.isSuffixOf f.data) := by
    unfold split_audio at h
    split at h
    · simp only at h
      split at h
      · exact (Except.ok.inj h).symm
      · simp at h
    · split at h
      · simp at h
      · exact (Except.ok.inj h).symm
  refine ⟨hl, ?_, split_audio_exists_oracle env e wav_file uuid silence_points⟩
  intro x hx
  rw [hl] at hx
  exact List.mem_of_mem_filter hx

/-- Witness for Claim C4 in the all-ok environment: the stray `notes.txt`
entry is filtered out and the returned names come from the listing. -/
theorem C4_return_is_listing_witness :
    (split_audio okEnv "a.wav" "u" none).1 = Except.ok ["segment_000.wav"]
    ∧ (["segment_000.wav"]
        = okEnv.finalListing.filter (fun f => ".wav".data.isSuffixOf f.data)
      ∧ (∀ x ∈ ["segment_000.wav"], x ∈ okEnv.finalListing)
      ∧ split_audio { okEnv with segExists := fun _ => false } "a.wav" "u" none
          = split_audio okEnv "a.wav" "u" none) :=
  ⟨rfl, C4_return_is_listing okEnv (fun _ => false) "a.wav" "u" none
    ["segment_000.wav"] rfl⟩

/-- Witness for Claim C9: with every invocation failing, the single
scenario interval makes `split_audio` raise the wrapped
`CalledProcessError` of its first extraction command. -/
theorem C9_fail_fast_witness :
    (split_audio failEnv "a.wav" "u" (some [{ start := 1, stop := 7 / 2 }])).1
      = Except.error ("Failed to split audio: "
          ++ cpeText (extractCmd "a.wav" (outputDirOf failEnv "a.wav" "u") 0
              (([{ start := 1, stop := 7 / 2 }] : List SilencePoint).getD 0 ⟨0, 0⟩))
            (failEnv.runStatus (extractCmd "a.wav" (outputDirOf failEnv "a.wav" "u") 0
              (([{ start := 1, stop := 7 / 2 }] : List SilencePoint).getD 0 ⟨0, 0⟩)))) :=
  (C9_fail_fast failEnv "a.wav" "u" [{ start := 1, stop := 7 / 2 }] 0 (by decide)
    (fun j hj => absurd hj (Nat.not_lt_zero j)) (by decide)).1

/-- Claim C7: with an empty interval set, `split_audio` issues exactly one
invocation of the external tool's fixed-interval segmentation mode — window
`10` seconds, stream-copied, output pattern `segment_%03d.wav` in the fresh
directory — and returns the directory listing; the modelled fixed-interval
mode covers the full duration `T` with consecutive windows each at most 10
seconds, every non-final window exactly 10 seconds, and the final window
ending exactly at `T`. -/
theorem C7_empty_fallback (env : SplitEnv) (wav_file uuid : String) (T : ℚ)
    (hT : 0 < T)
    (hok : env.runStatus (FfmpegCmd.segment wav_file "10" true
      (outputDirOf env wav_file uuid ++ "/segment_%03d.wav")) = 0) :
    (split_audio env wav_file uuid (some [])).2
      = [FfmpegCmd.segment wav_file "10" true
          (outputDirOf env wav_file uuid ++ "/segment_%03d.wav")]
    ∧ (split_audio env wav_file uuid (some [])).1
        = Except.ok (env.finalListing.filter (fun f => ".wav".data.isSuffixOf f.data))
    ∧ (∀ t, 0 ≤ t → t < T → ∃ p ∈ fixedModeWindows 10 T, p.1 ≤ t ∧ t < p.2)
    ∧ (∀ p ∈ fixedModeWindows 10 T, p.2 - p.1 ≤ 10)
    ∧ (∀ i, i + 1 < (fixedModeWindows 10 T).length →
        ((fixedModeWindows 10 T).getD i (0, 0)).2
          - ((fixedModeWindows 10 T).getD i (0, 0)).1 = 10)
    ∧ ((fixedModeWindows 10 T).getD ((fixedModeWindows 10 T).length - 1) (0, 0)).2
        = T := by
  have hsplit : split_audio env wav_file uuid (some [])
      = (Except.ok (env.finalListing.filter (fun f => ".wav".data.isSuffixOf f.data)),
         [FfmpegCmd.segment wav_file "10" true
           (outputDirOf env wav_file uuid ++ "/segment_%03d.wav")]) := by
    unfold split_audio
    simp [hok]
  refine ⟨by rw [hsplit], by rw [hsplit],
    fun t h0 ht => fixedModeWindows_cover 10 T (by norm_num) t h0 ht,
    fun p hp => fixedModeWindows_width_le 10 T p hp,
    fun i hi => fixedModeWindows_inner_width 10 T (by norm_num) i hi,
    fixedModeWindows_last_end 10 T (by norm_num) hT⟩

/-- Witness for Claim C7 in the all-ok environment with a 30-second asset. -/
theorem C7_empty_fallback_witness :
    (0 : ℚ) < 30
    ∧ okEnv.runStatus (FfmpegCmd.segment "a.wav" "10" true
        (outputDirOf okEnv "a.wav" "u" ++ "/segment_%03d.wav")) = 0
    ∧ (split_audio okEnv "a.wav" "u" (some [])).2
        = [FfmpegCmd.segment "a.wav" "10" true
            (outputDirOf okEnv "a.wav" "u" ++ "/segment_%03d.wav")] :=
  ⟨by norm_num, rfl,
    (C7_empty_fallback okEnv "a.wav" "u" 30 (by norm_num) rfl).1⟩

theorem convert_error_msg (env : ConvEnv) (i u m : String)
    (h : convert_to_wav env i u = Except.error m) :
    m = "Audio conversion failed: " ++ env.stderr
    ∨ m = "WAV conversion failed: Output file not created" := by
  unfold convert_to_wav at h
  split at h
  · exact Or.inl (Except.error.inj h).symm
  · split at h
    · exact Or.inr (Except.error.inj h).symm
    · simp at h

theorem detect_error_msg (env : DetectEnv) (m : String)
    (h : detect_silence env = Except.error m) :
    m = "Silence detection failed: " ++ env.stderr := by
  unfold detect_silence at h
  split at h
  · exact (Except.error.inj h).symm
  · simp at h

theorem splitLoop_error_shape (env : SplitEnv) (w d : String) :
    ∀ (pts : List SilencePoint) (i : ℕ) (e : String),
      (splitLoop env w d i pts).1 = some e →
      ∃ cmd, e = cpeText cmd (env.runStatus cmd) := by
  intro pts
  induction pts with
  | nil => intro i e h; simp [splitLoop] at h
  | cons p rest ih =>
    intro i e h
    by_cases h0 : env.runStatus (extractCmd w d i p) = 0
    · simp only [splitLoop, if_pos h0] at h
      rcases hl : splitLoop env w d (i + 1) rest with ⟨e1, s1, c1⟩
      rw [hl] at h
      simp only at h
      exact ih (i + 1) e (by rw [hl]; exact h)
    · simp only [splitLoop, if_neg h0] at h
      exact ⟨extractCmd w d i p, (Option.some.inj h).symm⟩

theorem split_error_msg (env : SplitEnv) (wav uuid : String)
    (pts : Option (List SilencePoint)) (m : String)
    (h : (split_audio env wav uuid pts).1 = Except.error m) :
    ∃ cmd, m = "Failed to split audio: " ++ cpeText cmd (env.runStatus cmd) := by
  unfold split_audio at h
  split at h
  · simp only at h
    split at h
    · simp at h
    · exact ⟨FfmpegCmd.segment wav "10" true
        (outputDirOf env wav uuid ++ "/segment_%03d.wav"),
        (Except.error.inj h).symm⟩
  · split at h
    · rename_i e1 s1 c1 heq
      obtain ⟨cmd, hc⟩ := splitLoop_error_shape env wav
        (outputDirOf env wav uuid) (pts.getD []) 0 e1 (by rw [heq])
      exact ⟨cmd, by rw [← hc]; exact (Except.error.inj h).symm⟩
    · simp at h

/-- Claim C5 (amended): `process_audio` either returns a segment batch or
fails with one of the three stage-tagged errors.  The conversion and
detection errors carry the external tool's stderr verbatim (conversion may
instead carry the fixed missing-output message); the split error carries
only the failed command and its exit status — `split_audio` runs the tool
without capturing stderr, so its diagnostic text is not included. -/
theorem C5_error_taxonomy (env : PipelineEnv) (input_file : String) :
    (∃ l, (process_audio env input_file).1 = Except.ok l)
    ∨ ((process_audio env input_file).1
        = Except.error (PipelineError.conversionError
            ("Audio conversion failed: " ++ env.conv.stderr)))
    ∨ ((process_audio env input_file).1
        = Except.error (PipelineError.conversionError
            "WAV conversion failed: Output file not created"))
    ∨ ((process_audio env input_file).1
        = Except.error (PipelineError.detectionError
            ("Silence detection failed: " ++ env.det.stderr)))
    ∨ (∃ cmd, (process_audio env input_file).1
        = Except.error (PipelineError.splitError
            ("Failed to split audio: "
              ++ cpeText cmd (env.split.runStatus cmd)))) := by
  rcases hc : convert_to_wav env.conv input_file env.convUuid with m | wav
  · rcases convert_error_msg env.conv input_file env.convUuid m hc with h1 | h1
    · right; left
      simp only [process_audio, hc, h1]
    · right; right; left
      simp only [process_audio, hc, h1]
  · rcases hd : detect_silence env.det with m | txt
    · right; right; right; left
      simp only [process_audio, hc, hd, detect_error_msg env.det m hd]
    · rcases hs : split_audio env.split wav env.splitUuid
        (some (parse_silence_points txt)) with ⟨r, cs⟩
      cases r with
      | ok l =>
        left
        exact ⟨l, by simp only [process_audio, hc, hd, hs]⟩
      | error m =>
        obtain ⟨cmd, hm⟩ := split_error_msg env.split wav env.splitUuid
          (some (parse_silence_points txt)) m (by rw [hs])
        right; right; right; right
        exact ⟨cmd, by simp only [process_audio, hc, hd, hs, hm]⟩

/-- The pipeline environment of the C5 counterexample: conversion and
detection succeed with empty detection output, and every split invocation
exits 1 after writing `boom` to its (uncaptured) stderr. -/
def bustedEnv : PipelineEnv :=
  { conv := { status := 0, stderr := "", outputCreated := true }
    det := { status := 0, stderr := "" }
    split := failEnv
    convUuid := "c0ffee00"
    splitUuid := "deadbeef" }

set_option maxRecDepth 8000 in
/-- Counterexample to Claim C5 as stated: in `bustedEnv` the external
segmentation tool fails after writing the diagnostic `boom` to stderr, yet
the raised split error carries only the command and exit status: the
diagnostic text appears nowhere in the message. -/
theorem C5_counterexample :
    bustedEnv.split.stderrText (FfmpegCmd.segment "/output/converted_c0ffee00.wav"
      "10" true "/output/01_segments_deadbeef/segment_%03d.wav") = "boom"
    ∧ (process_audio bustedEnv "song.mp3").1
      = Except.error (PipelineError.splitError
          "Failed to split audio: Command ffmpeg -i /output/converted_c0ffee00.wav -f segment -segment_time 10 -c copy /output/01_segments_deadbeef/segment_%03d.wav returned non-zero exit status 1.")
    ∧ ¬ ("boom".data
        <:+: "Failed to split audio: Command ffmpeg -i /output/converted_c0ffee00.wav -f segment -segment_time 10 -c copy /output/01_segments_deadbeef/segment_%03d.wav returned non-zero exit status 1.".data) :=
  ⟨rfl, rfl, by decide⟩

/-- Claim C8: `process_audio` runs conversion, detection, parsing and
splitting strictly in that order with no retry: the stage trace is a prefix
of the full stage list, a failing stage is the last stage in the trace, no
later stage runs, and the failing stage's error message is propagated to
the caller verbatim, tagged with the stage that produced it. -/
theorem C8_pipeline_sequencing (env : PipelineEnv) (input_file : String) :
    ((process_audio env input_file).2 = [Stage.conversion]
      ∧ ∃ m, (process_audio env input_file).1
            = Except.error (PipelineError.conversionError m)
          ∧ convert_to_wav env.conv input_file env.convUuid = Except.error m)
    ∨ ((process_audio env input_file).2 = [Stage.conversion, Stage.detection]
      ∧ ∃ m, (process_audio env input_file).1
            = Except.error (PipelineError.detectionError m)
          ∧ detect_silence env.det = Except.error m
          ∧ ∃ wav, convert_to_wav env.conv input_file env.convUuid = Except.ok wav)
    ∨ ((process_audio env input_file).2
        = [Stage.conversion, Stage.detection, Stage.parsing, Stage.splitting]
      ∧ ∃ wav txt, convert_to_wav env.conv input_file env.convUuid = Except.ok wav
          ∧ detect_silence env.det = Except.ok txt
          ∧ ((∃ m, (process_audio env input_file).1
                = Except.error (PipelineError.splitError m)
              ∧ (split_audio env.split wav env.splitUuid
                  (some (parse_silence_points txt))).1 = Except.error m)
            ∨ (∃ l, (process_audio env input_file).1 = Except.ok l
              ∧ (split_audio env.split wav env.splitUuid
                  (some (parse_silence_points txt))).1 = Except.ok l))) := by
  rcases hc : convert_to_wav env.conv input_file env.convUuid with m | wav
  · left
    constructor
    · simp only [process_audio, hc]
    · exact ⟨m, by simp only [process_audio, hc], rfl⟩
  · rcases hd : detect_silence env.det with m | txt
    · right; left
      constructor
      · simp only [process_audio, hc, hd]
      · exact ⟨m, by simp only [process_audio, hc, hd], rfl, wav, rfl⟩
    · right; right
      rcases hs : split_audio env.split wav env.splitUuid
        (some (parse_silence_points txt)) with ⟨r, cs⟩
      cases r with
      | ok l =>
        refine ⟨by simp only [process_audio, hc, hd, hs], wav, txt, rfl, rfl,
          Or.inr ⟨l, by simp only [process_audio, hc, hd, hs], by rw [hs]⟩⟩
      | error m =>
        refine ⟨by simp only [process_audio, hc, hd, hs], wav, txt, rfl, rfl,
          Or.inl ⟨m, by simp only [process_audio, hc, hd, hs], by rw [hs]⟩⟩

/-- Witness for Claim C6 (amended) at the inverted detection text. -/
theorem C6_intervals_nonneg_witness :
    ({ start := 5, stop := 1 } : SilencePoint) ∈ parse_silence_points invertedText
    ∧ 0 ≤ ({ start := 5, stop := 1 } : SilencePoint).start
    ∧ 0 ≤ ({ start := 5, stop := 1 } : SilencePoint).stop :=
  have hm : ({ start := 5, stop := 1 } : SilencePoint)
      ∈ parse_silence_points invertedText := by
    rw [parse_inverted]; exact List.mem_singleton.mpr rfl
  ⟨hm, C6_intervals_nonneg invertedText _ hm⟩

end AudacityHandler
